import Mathlib

/-!
Verification of the Tic-Tac-Toe game logic in `public/src/App.js`
(Louisaok9487/OOXX-game).

The React component `App` keeps seven pieces of state (`board`, `xIsNext`,
`winner`, `isDraw`, `gameAnalysis`, `isLoadingAnalysis`, `winningLine`) and
manipulates them through `handleClick` (the human move), `makeComputerMove`
(the computer opponent), a `useEffect` that recomputes the game status after
every board change, `resetGame`, and `getLLMGameAnalysis` (the external
analysis call).  Each of those is embedded below as a pure function on an
explicit `GameState`; the only sources of nondeterminism in the original —
`Math.random()` in the opponent's fallback strategy and the network outcome
of the analysis call — are passed in as explicit parameters.
-/

namespace OOXX

/-- A player's mark: `'X'` (the computer, P2) or `'O'` (the human, P1). -/
inductive Mark where
  | X : Mark
  | O : Mark
deriving DecidableEq, Repr

/-- One cell of the board: `null` in JS is `none` here. -/
abbrev Cell := Option Mark

/-- The board is the JS array of 9 cells (index `0..8`, row-major). -/
abbrev Board := List Cell

/-- A win line, a triple of board indices. -/
abbrev Line := Nat × Nat × Nat

/-- The fixed table of the 8 win lines from `calculateWinner`
(rows, then columns, then diagonals), in source order. -/
def lines : List Line :=
  [(0, 1, 2), (3, 4, 5), (6, 7, 8),
   (0, 3, 6), (1, 4, 7), (2, 5, 8),
   (0, 4, 8), (2, 4, 6)]

/-- The body of the loop in `calculateWinner`: for one line `[a, b, c]`,
`if (squares[a] && squares[a] === squares[b] && squares[a] === squares[c])
 return { winner: squares[a], line: lines[i] }`. -/
def checkLine (squares : Board) (ln : Line) : Option (Mark × Line) :=
  match squares.getD ln.1 none with
  | none => none
  | some m =>
      if squares.getD ln.2.1 none = some m ∧ squares.getD ln.2.2 none = some m then
        some (m, ln)
      else
        none

/-- The `for` loop of `calculateWinner`: return at the first matching line. -/
def firstWin (squares : Board) : List Line → Option (Mark × Line)
  | [] => none
  | ln :: rest =>
      match checkLine squares ln with
      | some res => some res
      | none => firstWin squares rest

/-- `calculateWinner(squares)`: the first line in table order whose three
cells hold the same non-null mark, together with that mark; `null` if none. -/
def calculateWinner (squares : Board) : Option (Mark × Line) :=
  firstWin squares lines

/-- The derived game status (spec type `GameStatus`). -/
inductive GameStatus where
  | InProgress : Bool → GameStatus
  | Won : Mark → Line → GameStatus
  | Drawn : GameStatus
deriving DecidableEq, Repr

/-- The status decision of the `useEffect` in `App` (App.js lines 60–67),
also reflected by `getStatus`: a winner if `calculateWinner` finds one,
else a draw when no cell is `null` (`!board.includes(null)`), else the game
continues with the current side to move. -/
def evaluate (board : Board) (xIsNext : Bool) : GameStatus :=
  match calculateWinner board with
  | some (m, ln) => GameStatus.Won m ln
  | none =>
      if board.contains none then GameStatus.InProgress xIsNext else GameStatus.Drawn

/-- The seven `useState` fields of the `App` component. -/
structure GameState where
  board : Board
  xIsNext : Bool
  winner : Option Mark
  isDraw : Bool
  gameAnalysis : String
  isLoadingAnalysis : Bool
  winningLine : Option Line
deriving DecidableEq, Repr

/-- The initial values of the seven `useState` calls:
board `Array(9).fill(null)`, `xIsNext = false` ('O', the human, starts),
no winner, no draw, empty analysis, not loading, no winning line. -/
def initialState : GameState :=
  { board := List.replicate 9 none
    xIsNext := false
    winner := none
    isDraw := false
    gameAnalysis := ""
    isLoadingAnalysis := false
    winningLine := none }

/-- `handleClick(i)`, the human move ('O').  The UI only ever invokes it with
the index of one of the nine rendered squares, so the index is `Fin 9`.
If there is a winner, a draw, the square is filled (`board[i]` truthy), or it
is not O's turn (`xIsNext`), it returns without changing anything; otherwise
it writes `'O'` at `i` and hands the turn to the computer. -/
def handleClick (s : GameState) (i : Fin 9) : GameState :=
  if s.winner.isSome || s.isDraw || (s.board.getD i.val none).isSome || s.xIsNext then
    s
  else
    { s with board := s.board.set i.val (some Mark.O), xIsNext := true }

/-- `availableSquares` inside `makeComputerMove`:
`newBoard.map((val, idx) => val === null ? idx : null).filter(val => val !== null)` —
the indices of the `null` cells, in ascending order. -/
def availableSquares (squares : Board) : List Nat :=
  ((squares.enum.map fun p => if p.2 = none then some p.1 else none).filterMap id)

/-- The test `calculateWinner(tempBoard)?.winner === m` from the strategy
loops of `makeComputerMove`. -/
def winnerIs (b : Board) (m : Mark) : Bool :=
  match calculateWinner b with
  | some (w, _) => w == m
  | none => false

/-- Strategy 1/2 loop of `makeComputerMove`: the first available index such
that placing `m` there makes `calculateWinner(tempBoard)?.winner === m`. -/
def findWinMove (squares : Board) (avail : List Nat) (m : Mark) : Option Nat :=
  avail.find? fun i => winnerIs (squares.set i (some m)) m

/-- The move selection of `makeComputerMove` (App.js lines 94–151):
strategy 1 (win), 2 (block), 3 (center 4), 4 (first free corner of
`[0, 2, 6, 8]`), 5 (random available square).  `Math.random()` is passed in
as `r`; `Math.floor(Math.random() * len)` ranges over `0..len-1`, embedded
as `r % len`.  Returns `none` when no square is available (the early
`return` of the source). -/
def bestMove (squares : Board) (r : Nat) : Option Nat :=
  let avail := availableSquares squares
  if avail.isEmpty then
    none
  else
    some <|
      match findWinMove squares avail Mark.X with
      | some i => i
      | none =>
          match findWinMove squares avail Mark.O with
          | some i => i
          | none =>
              if squares.getD 4 none = none then
                4
              else
                match [0, 2, 6, 8].find? (fun c => squares.getD c none = none) with
                | some c => c
                | none => avail.getD (r % avail.length) 0

/-- `makeComputerMove(currentBoard)` as a state transition: writes `'X'` at
the selected square and hands the turn back to the human; does nothing when
no square is available. -/
def makeComputerMove (s : GameState) (r : Nat) : GameState :=
  match bestMove s.board r with
  | none => s
  | some i => { s with board := s.board.set i (some Mark.X), xIsNext := false }

/-- The `useEffect` body (App.js lines 60–75) as a state transition: record
winner and winning line if any; else set the draw flag when the board is
full; else, on the computer's turn, perform the (delayed) computer move. -/
def checkBoardEffect (s : GameState) (r : Nat) : GameState :=
  match calculateWinner s.board with
  | some (m, ln) => { s with winner := some m, winningLine := some ln }
  | none =>
      if ! s.board.contains none then
        { s with isDraw := true }
      else if s.xIsNext then
        makeComputerMove s r
      else
        s

/-- `resetGame()`: resets all seven state fields to their initial values. -/
def resetGame (_s : GameState) : GameState :=
  { board := List.replicate 9 none
    xIsNext := false
    winner := none
    isDraw := false
    gameAnalysis := ""
    isLoadingAnalysis := false
    winningLine := none }

/-! ### The external analysis call (`getLLMGameAnalysis`)

The JSON response is inspected only through
`result.candidates[0].content.parts[0].text`; the structures below model
exactly the fields the code reads, with `none` for an absent field. -/

/-- One element of `content.parts`; the code reads its `text` field. -/
structure LLMPart where
  text : String
deriving DecidableEq, Repr

/-- The `content` of a candidate; `parts` may be absent. -/
structure LLMContent where
  parts : Option (List LLMPart)
deriving DecidableEq, Repr

/-- One element of `result.candidates`; `content` may be absent. -/
structure LLMCandidate where
  content : Option LLMContent
deriving DecidableEq, Repr

/-- The parsed response body; `candidates` may be absent. -/
structure LLMResult where
  candidates : Option (List LLMCandidate)
deriving DecidableEq, Repr

/-- The outcome of `fetch` + `response.json()`: either a parsed result, or a
thrown error (network failure or invalid JSON) caught by the `catch` block. -/
inductive FetchOutcome where
  | success : LLMResult → FetchOutcome
  | failure : FetchOutcome
deriving DecidableEq, Repr

/-- The guard of `getLLMGameAnalysis`:
`result.candidates && result.candidates.length > 0 && result.candidates[0].content
 && result.candidates[0].content.parts && result.candidates[0].content.parts.length > 0`,
returning `result.candidates[0].content.parts[0].text` when it holds. -/
def extractAnalysis (result : LLMResult) : Option String :=
  match result.candidates with
  | some (c0 :: _) =>
      match c0.content with
      | some content =>
          match content.parts with
          | some (p0 :: _) => some p0.text
          | _ => none
      | none => none
  | _ => none

/-- The message set when the response structure is unexpected. -/
def unexpectedResponseMsg : String := "Could not get analysis. Unexpected response from LLM."

/-- The message set by the `catch` block on a transport failure. -/
def transportFailureMsg : String := "Failed to get game analysis. Please try again later."

/-- `getLLMGameAnalysis()` as a state transition, with the network outcome
passed in: set the loading flag and clear the previous analysis, then store
either the extracted text, the unexpected-response message, or the
transport-failure message; the `finally` block clears the loading flag. -/
def getLLMGameAnalysis (s : GameState) (outcome : FetchOutcome) : GameState :=
  let s1 := { s with isLoadingAnalysis := true, gameAnalysis := "" }
  match outcome with
  | FetchOutcome.success result =>
      match extractAnalysis result with
      | some text => { s1 with gameAnalysis := text, isLoadingAnalysis := false }
      | none => { s1 with gameAnalysis := unexpectedResponseMsg, isLoadingAnalysis := false }
  | FetchOutcome.failure =>
      { s1 with gameAnalysis := transportFailureMsg, isLoadingAnalysis := false }

/-! ### Spec-side definitions

The following definitions restate, in the spec's own words, the behaviors
the code definitions above are claimed to implement; the refinement theorems
below compare the two. -/

/-- Spec reading of a completed win line: all three of its indices hold the
same non-empty mark. -/
def sameNonEmpty (squares : Board) (ln : Line) : Bool :=
  match squares.getD ln.1 none, squares.getD ln.2.1 none, squares.getD ln.2.2 none with
  | some m, some m', some m'' => m == m' && m == m''
  | _, _, _ => false

/-- Spec reading of the winner: the first line in table order that is
completed, paired with the mark it holds. -/
def specWinner (squares : Board) : Option (Mark × Line) :=
  (lines.find? (sameNonEmpty squares)).bind fun ln =>
    (squares.getD ln.1 none).map fun m => (m, ln)

/-- Spec reading of "hypothetically place `m` and see whether `evaluate`
reports `Won(m, _)`". -/
def specWins (b : Board) (m : Mark) : Bool :=
  match evaluate b true with
  | GameStatus.Won w _ => w == m
  | _ => false

/-- Spec reading of the empty indices: indices `0..8` whose cell is `Empty`,
in ascending order. -/
def specEmpties (squares : Board) : List Nat :=
  (List.range 9).filter fun i => squares.getD i none = none

/-- The opponent strategy cascade as the spec states it: (1) first empty
index, ascending, where placing P2's mark wins; (2) first empty index,
ascending, where placing P1's mark would win for P1; (3) center index 4 if
empty; (4) first empty corner of `[0, 2, 6, 8]`; (5) the random element of
the remaining empty indices, with the randomness source `r`. -/
def specCascade (squares : Board) (r : Nat) : Option Nat :=
  let empties := specEmpties squares
  if empties.isEmpty then
    none
  else
    some <|
      match empties.find? (fun i => specWins (squares.set i (some Mark.X)) Mark.X) with
      | some i => i
      | none =>
          match empties.find? (fun i => specWins (squares.set i (some Mark.O)) Mark.O) with
          | some i => i
          | none =>
              if squares.getD 4 none = none then
                4
              else
                match [0, 2, 6, 8].find? (fun c => squares.getD c none = none) with
                | some c => c
                | none => empties.getD (r % empties.length) 0

/-! ### Helper lemmas -/

/-- `sameNonEmpty` holds exactly when the three cells of the line carry one
common non-empty mark. -/
theorem sameNonEmpty_iff {squares : Board} {ln : Line} :
    sameNonEmpty squares ln = true ↔
      ∃ m, squares.getD ln.1 none = some m ∧ squares.getD ln.2.1 none = some m ∧
        squares.getD ln.2.2 none = some m := by
  unfold sameNonEmpty
  rcases squares.getD ln.1 none with _ | m <;>
    rcases squares.getD ln.2.1 none with _ | m' <;>
      rcases squares.getD ln.2.2 none with _ | m'' <;> simp
  constructor
  · rintro ⟨h1, h2⟩
    exact ⟨h1.symm, h2.symm⟩
  · rintro ⟨h1, h2⟩
    exact ⟨h1.symm, h2.symm⟩

/-- The line check of `calculateWinner` agrees with the spec's reading of a
completed line: it succeeds exactly on a completed line, returning the
common mark together with the line. -/
theorem checkLine_eq (squares : Board) (ln : Line) :
    checkLine squares ln =
      if sameNonEmpty squares ln then
        (squares.getD ln.1 none).map fun m => (m, ln)
      else none := by
  unfold checkLine sameNonEmpty
  rcases squares.getD ln.1 none with _ | m <;>
    rcases squares.getD ln.2.1 none with _ | m' <;>
      rcases squares.getD ln.2.2 none with _ | m'' <;> simp
  exact if_congr ⟨fun ⟨a, b⟩ => ⟨a.symm, b.symm⟩, fun ⟨a, b⟩ => ⟨a.symm, b.symm⟩⟩ rfl rfl

/-- A completed line holds a mark at its first index. -/
theorem sameNonEmpty_isSome {squares : Board} {ln : Line}
    (h : sameNonEmpty squares ln = true) : ∃ m, squares.getD ln.1 none = some m := by
  rcases sameNonEmpty_iff.mp h with ⟨m, hm, -, -⟩
  exact ⟨m, hm⟩

/-- The loop of `calculateWinner` returns, for the first line of `L` that is
completed in the spec's sense, the mark at that line's first index. -/
theorem firstWin_eq_find? (squares : Board) :
    ∀ L : List Line, firstWin squares L =
      (L.find? (sameNonEmpty squares)).bind fun ln =>
        (squares.getD ln.1 none).map fun m => (m, ln)
  | [] => rfl
  | ln :: rest => by
      have ih := firstWin_eq_find? squares rest
      cases hs : sameNonEmpty squares ln
      · have hcl : checkLine squares ln = none := by
          rw [checkLine_eq, hs]
          rfl
        rw [List.find?_cons_of_neg rest (by simp [hs])]
        simpa [firstWin, hcl] using ih
      · rcases sameNonEmpty_isSome hs with ⟨m, hm⟩
        have hcl : checkLine squares ln = some (m, ln) := by
          rw [checkLine_eq, hs, hm]
          rfl
        rw [List.find?_cons_of_pos rest hs]
        simp only [firstWin, hcl, Option.some_bind]
        rw [hm]
        rfl

/-- `calculateWinner` finds no winner exactly when no line is completed. -/
theorem calculateWinner_eq_none_iff (squares : Board) :
    calculateWinner squares = none ↔ ∀ ln ∈ lines, sameNonEmpty squares ln = false := by
  rw [calculateWinner, firstWin_eq_find? squares lines]
  constructor
  · intro h ln hln
    cases hsn : sameNonEmpty squares ln
    · rfl
    · exfalso
      rcases Option.isSome_iff_exists.mp (List.find?_isSome.mpr ⟨ln, hln, hsn⟩) with ⟨ln', hfind⟩
      rcases sameNonEmpty_isSome (List.find?_some hfind) with ⟨m, hm⟩
      rw [hfind] at h
      simp only [Option.some_bind, hm, Option.map_some'] at h
      exact Option.noConfusion h
  · intro h
    have hnone : lines.find? (sameNonEmpty squares) = none :=
      List.find?_eq_none.mpr fun ln hln => by simp [h ln hln]
    simp [hnone]

/-- The spec's hypothetical-win test through `evaluate` agrees with the
code's test `calculateWinner(tempBoard)?.winner === m`. -/
theorem specWins_eq (b : Board) (m : Mark) : specWins b m = winnerIs b m := by
  unfold specWins winnerIs evaluate
  rcases calculateWinner b with _ | ⟨w, ln⟩
  · cases b.contains none <;> rfl
  · rfl

/-- On a 9-cell board, the `map`/`filter` computation of `availableSquares`
produces exactly the ascending list of empty indices `0..8`. -/
theorem availableSquares_eq (squares : Board) (h9 : squares.length = 9) :
    availableSquares squares = specEmpties squares := by
  rcases squares with _ | ⟨c0, squares⟩; · simp at h9
  rcases squares with _ | ⟨c1, squares⟩; · simp at h9
  rcases squares with _ | ⟨c2, squares⟩; · simp at h9
  rcases squares with _ | ⟨c3, squares⟩; · simp at h9
  rcases squares with _ | ⟨c4, squares⟩; · simp at h9
  rcases squares with _ | ⟨c5, squares⟩; · simp at h9
  rcases squares with _ | ⟨c6, squares⟩; · simp at h9
  rcases squares with _ | ⟨c7, squares⟩; · simp at h9
  rcases squares with _ | ⟨c8, squares⟩; · simp at h9
  rcases squares with _ | ⟨c9, squares⟩
  · cases c0 <;> cases c1 <;> cases c2 <;> cases c3 <;> cases c4 <;>
      cases c5 <;> cases c6 <;> cases c7 <;> cases c8 <;> rfl
  · simp only [List.length_cons] at h9
    omega

/-! ### The claims -/

/-- Claim C2: for every board, `calculateWinner` scans the 8 fixed win-lines in
table order (rows, columns, diagonals) and returns the mark and line of the
first completed line, or no winner when no line is completed. -/
theorem spec2proof_C2 (squares : Board) :
    calculateWinner squares = specWinner squares ∧
    lines = [(0, 1, 2), (3, 4, 5), (6, 7, 8),
             (0, 3, 6), (1, 4, 7), (2, 5, 8),
             (0, 4, 8), (2, 4, 6)] :=
  ⟨firstWin_eq_find? squares lines, rfl⟩

/-- Claim C3: status evaluation yields exactly one of the three statuses: a board
with a completed line evaluates to `Won` (even if full), a full board with
no completed line evaluates to `Drawn` (never `Won`), a board with no
completed line and an empty cell evaluates to `InProgress`, and no board
evaluates to both a win and a draw. -/
theorem spec2proof_C3 (board : Board) (x : Bool) :
    ((∃ ln ∈ lines, sameNonEmpty board ln = true) →
        ∃ m ln, evaluate board x = GameStatus.Won m ln) ∧
    ((∀ ln ∈ lines, sameNonEmpty board ln = false) → board.contains none = false →
        evaluate board x = GameStatus.Drawn) ∧
    ((∀ ln ∈ lines, sameNonEmpty board ln = false) → board.contains none = true →
        evaluate board x = GameStatus.InProgress x) ∧
    (∀ m ln, ¬(evaluate board x = GameStatus.Won m ln ∧ evaluate board x = GameStatus.Drawn)) := by
  refine ⟨?_, ?_, ?_, ?_⟩
  · rintro ⟨ln, hln, hs⟩
    rcases Option.isSome_iff_exists.mp (List.find?_isSome.mpr ⟨ln, hln, hs⟩) with ⟨ln', hfind⟩
    rcases sameNonEmpty_isSome (List.find?_some hfind) with ⟨m, hm⟩
    have hw : calculateWinner board = some (m, ln') := by
      rw [calculateWinner, firstWin_eq_find? board lines, hfind]
      simp only [Option.some_bind]
      rw [hm]
      rfl
    refine ⟨m, ln', ?_⟩
    unfold evaluate
    rw [hw]
  · intro hno hfull
    have hw : calculateWinner board = none := (calculateWinner_eq_none_iff board).mpr hno
    unfold evaluate
    rw [hw, hfull]
    simp
  · intro hno hcontains
    have hw : calculateWinner board = none := (calculateWinner_eq_none_iff board).mpr hno
    unfold evaluate
    rw [hw, hcontains]
    simp
  · rintro m ln ⟨h1, h2⟩
    rw [h1] at h2
    exact GameStatus.noConfusion h2

/-- Witness for C3 on concrete boards: a full board with a completed row is
`Won`, a full board with no completed line is `Drawn`, the empty board is
`InProgress`. -/
theorem spec2proof_C3_witness :
    (∃ m ln, evaluate [some Mark.X, some Mark.X, some Mark.X,
                       some Mark.O, some Mark.O, some Mark.X,
                       some Mark.X, some Mark.O, some Mark.O] false
        = GameStatus.Won m ln) ∧
    evaluate [some Mark.X, some Mark.O, some Mark.X,
              some Mark.X, some Mark.O, some Mark.O,
              some Mark.O, some Mark.X, some Mark.X] false = GameStatus.Drawn ∧
    evaluate (List.replicate 9 none) false = GameStatus.InProgress false :=
  ⟨(spec2proof_C3 _ false).1 (by decide),
   (spec2proof_C3 _ false).2.1 (by decide) (by decide),
   (spec2proof_C3 _ false).2.2.1 (by decide) (by decide)⟩

/-- Claim C1: on every 9-cell board with at least one empty cell, the move chosen
by `makeComputerMove`'s selection logic is exactly the one prescribed by the
spec's ordered strategy cascade (win, block, center, corners `[0,2,6,8]`,
random remaining), with empty indices tried in ascending order in the win
and block strategies. -/
theorem spec2proof_C1 (squares : Board) (r : Nat) (h9 : squares.length = 9)
    (_hne : ∃ i, i < 9 ∧ squares.getD i none = none) :
    bestMove squares r = specCascade squares r := by
  have hpredX : (fun i => specWins (squares.set i (some Mark.X)) Mark.X)
      = fun i => winnerIs (squares.set i (some Mark.X)) Mark.X :=
    funext fun i => specWins_eq _ _
  have hpredO : (fun i => specWins (squares.set i (some Mark.O)) Mark.O)
      = fun i => winnerIs (squares.set i (some Mark.O)) Mark.O :=
    funext fun i => specWins_eq _ _
  unfold specCascade
  rw [← availableSquares_eq squares h9, hpredX, hpredO]
  rfl

/-- Witness for C1 at the empty board with randomness source `3`. -/
theorem spec2proof_C1_witness :
    (List.replicate 9 (none : Cell)).length = 9 ∧
    (0 < 9 ∧ (List.replicate 9 (none : Cell)).getD 0 none = none) ∧
    bestMove (List.replicate 9 none) 3 = specCascade (List.replicate 9 none) 3 :=
  ⟨by decide, ⟨by decide, by decide⟩,
   spec2proof_C1 (List.replicate 9 none) 3 (by decide) ⟨0, by decide, by decide⟩⟩

/-- Every index produced by `availableSquares` is empty on the board. -/
theorem mem_availableSquares {squares : Board} (h9 : squares.length = 9) {j : Nat}
    (hj : j ∈ availableSquares squares) : squares.getD j none = none := by
  rw [availableSquares_eq squares h9] at hj
  exact of_decide_eq_true (List.mem_filter.mp hj).2

/-- Claim C6: the opponent policy only ever selects an index whose cell is empty
on the input board, under every one of its five strategies. -/
theorem spec2proof_C6 (squares : Board) (r i : Nat) (h9 : squares.length = 9)
    (h : bestMove squares r = some i) : squares.getD i none = none := by
  unfold bestMove at h
  by_cases he : (availableSquares squares).isEmpty
  · rw [if_pos he] at h
    exact Option.noConfusion h
  · rw [if_neg he] at h
    have h' := Option.some.inj h
    clear h
    split at h'
    · rename_i iX hX
      subst h'
      exact mem_availableSquares h9 (List.mem_of_find?_eq_some hX)
    · rename_i hX
      split at h'
      · rename_i iO hO
        subst h'
        exact mem_availableSquares h9 (List.mem_of_find?_eq_some hO)
      · rename_i hO
        split at h'
        · rename_i h4
          subst h'
          exact h4
        · rename_i h4
          split at h'
          · rename_i c hcorner
            subst h'
            have hp := List.find?_some hcorner
            simp only [decide_eq_true_eq] at hp
            exact hp
          · rename_i hcorner
            subst h'
            refine mem_availableSquares h9 ?_
            have hne' : availableSquares squares ≠ [] := fun hnil => he (by rw [hnil]; rfl)
            have hlt : r % (availableSquares squares).length
                < (availableSquares squares).length :=
              Nat.mod_lt _ (List.length_pos.mpr hne')
            rw [List.getD_eq_getElem?_getD, List.getElem?_eq_getElem hlt]
            exact List.getElem_mem hlt

/-- Witness for C6: on the empty board the policy picks the center, which is
empty. -/
theorem spec2proof_C6_witness :
    bestMove (List.replicate 9 none) 0 = some 4 ∧
    (List.replicate 9 (none : Cell)).getD 4 none = none :=
  ⟨by decide, spec2proof_C6 (List.replicate 9 none) 0 4 (by decide) (by decide)⟩

/-- Claim C7: on `["X","X",null,"O","O",null,null,null,null]` with the computer to
move, the policy plays index 2 for every randomness source, completing its
own line `(0,1,2)` rather than blocking the human at index 5. -/
theorem spec2proof_C7 (r : Nat) :
    bestMove [some Mark.X, some Mark.X, none,
              some Mark.O, some Mark.O, none, none, none, none] r = some 2 ∧
    calculateWinner ([some Mark.X, some Mark.X, none,
                      some Mark.O, some Mark.O, none, none, none, none].set 2 (some Mark.X))
      = some (Mark.X, (0, 1, 2)) ∧
    winnerIs ([some Mark.X, some Mark.X, none,
               some Mark.O, some Mark.O, none, none, none, none].set 5 (some Mark.O)) Mark.O
      = true :=
  ⟨rfl, rfl, rfl⟩

/-- Claim C8: on `["O","O",null,null,"X",null,null,null,null]` with the computer
to move, no immediate win exists for the computer, so the policy plays
index 2 for every randomness source, blocking the human's line `(0,1,2)`
before center or corner preference can apply. -/
theorem spec2proof_C8 (r : Nat) :
    bestMove [some Mark.O, some Mark.O, none, none,
              some Mark.X, none, none, none, none] r = some 2 ∧
    findWinMove [some Mark.O, some Mark.O, none, none,
                 some Mark.X, none, none, none, none]
      (availableSquares [some Mark.O, some Mark.O, none, none,
                         some Mark.X, none, none, none, none]) Mark.X = none ∧
    calculateWinner ([some Mark.O, some Mark.O, none, none,
                      some Mark.X, none, none, none, none].set 2 (some Mark.O))
      = some (Mark.O, (0, 1, 2)) :=
  ⟨rfl, rfl, rfl⟩

/-- Claim C4: whenever a precondition of the human-move handler is violated —
the game already won or drawn, the target cell occupied, or it not being
the human's turn — `handleClick` leaves the whole game state unchanged. -/
theorem spec2proof_C4 (s : GameState) (i : Fin 9)
    (h : s.winner.isSome = true ∨ s.isDraw = true ∨
      (s.board.getD i.val none).isSome = true ∨ s.xIsNext = true) :
    handleClick s i = s := by
  unfold handleClick
  rw [if_pos]
  rcases h with h | h | h | h <;> rw [h] <;> simp

/-- Witness for C4: clicking square 0 after the game is won changes
nothing. -/
theorem spec2proof_C4_witness :
    ({ initialState with winner := some Mark.X } : GameState).winner.isSome = true ∧
    handleClick { initialState with winner := some Mark.X } 0
      = { initialState with winner := some Mark.X } :=
  ⟨rfl, spec2proof_C4 _ 0 (Or.inl rfl)⟩

/-- Claim C5: turn alternation — the human ('O') moves first; a human move that
changes the state happens only when it is the human's turn and hands the
turn to the computer; a computer move that changes the state hands the turn
back to the human; and the board-check effect never moves when it is the
human's turn. -/
theorem spec2proof_C5 :
    initialState.xIsNext = false ∧
    (∀ (s : GameState) (i : Fin 9), handleClick s i ≠ s →
        s.xIsNext = false ∧ (handleClick s i).xIsNext = true) ∧
    (∀ (s : GameState) (r : Nat), makeComputerMove s r ≠ s →
        (makeComputerMove s r).xIsNext = false) ∧
    (∀ (s : GameState) (r : Nat), s.xIsNext = false →
        (checkBoardEffect s r).board = s.board ∧
        (checkBoardEffect s r).xIsNext = s.xIsNext) := by
  refine ⟨rfl, ?_, ?_, ?_⟩
  · intro s i hne
    by_cases hc : (s.winner.isSome || s.isDraw ||
        (s.board.getD i.val none).isSome || s.xIsNext) = true
    · exfalso
      apply hne
      unfold handleClick
      rw [if_pos hc]
    · have hx : s.xIsNext = false := by
        cases hb : s.xIsNext
        · rfl
        · exact absurd (by simp [hb]) hc
      refine ⟨hx, ?_⟩
      unfold handleClick
      rw [if_neg hc]
  · intro s r hne
    rcases hb : bestMove s.board r with _ | j
    · exfalso
      apply hne
      unfold makeComputerMove
      rw [hb]
    · unfold makeComputerMove
      rw [hb]
  · intro s r hx
    unfold checkBoardEffect
    rcases hw : calculateWinner s.board with _ | ⟨m, ln⟩
    · cases hcont : s.board.contains none <;> simp [hx]
    · exact ⟨rfl, rfl⟩

/-- Witness for C5: the first human click hands the turn to the computer; a
computer move hands it back; the board-check effect does not move for the
human. -/
theorem spec2proof_C5_witness :
    (handleClick initialState 0).xIsNext = true ∧
    (makeComputerMove { initialState with xIsNext := true } 0).xIsNext = false ∧
    (checkBoardEffect initialState 0).board = initialState.board :=
  ⟨(spec2proof_C5.2.1 initialState 0
      (fun h => absurd (congrArg GameState.xIsNext h) (by decide))).2,
   spec2proof_C5.2.2.1 { initialState with xIsNext := true } 0
      (fun h => absurd (congrArg GameState.xIsNext h) (by decide)),
   (spec2proof_C5.2.2.2 initialState 0 rfl).1⟩

/-- Claim C9: resetting from any state restores the initial state — all nine
cells empty, the human to move, and winner, draw flag, winning line,
analysis text, and loading flag all cleared. -/
theorem spec2proof_C9 (s : GameState) :
    resetGame s = initialState ∧
    (resetGame s).board = List.replicate 9 none ∧
    (resetGame s).xIsNext = false ∧
    (resetGame s).winner = none ∧
    (resetGame s).isDraw = false ∧
    (resetGame s).winningLine = none ∧
    (resetGame s).gameAnalysis = "" ∧
    (resetGame s).isLoadingAnalysis = false :=
  ⟨rfl, rfl, rfl, rfl, rfl, rfl, rfl, rfl⟩

/-- Claim C10: the analysis call never mutates the game fields (board, turn,
winner, draw flag, winning line); a transport failure surfaces the fixed
failure message; a response with no usable first textual candidate surfaces
the fixed unexpected-response message; and on success the displayed text is
exactly the first candidate's first text part. -/
theorem spec2proof_C10 (s : GameState) (outcome : FetchOutcome) :
    ((getLLMGameAnalysis s outcome).board = s.board ∧
     (getLLMGameAnalysis s outcome).xIsNext = s.xIsNext ∧
     (getLLMGameAnalysis s outcome).winner = s.winner ∧
     (getLLMGameAnalysis s outcome).isDraw = s.isDraw ∧
     (getLLMGameAnalysis s outcome).winningLine = s.winningLine) ∧
    (getLLMGameAnalysis s FetchOutcome.failure).gameAnalysis = transportFailureMsg ∧
    (∀ result, outcome = FetchOutcome.success result → extractAnalysis result = none →
        (getLLMGameAnalysis s outcome).gameAnalysis = unexpectedResponseMsg) ∧
    (∀ result text, outcome = FetchOutcome.success result → extractAnalysis result = some text →
        (getLLMGameAnalysis s outcome).gameAnalysis = text) := by
  refine ⟨?_, rfl, ?_, ?_⟩
  · rcases outcome with result | _
    · rcases hres : extractAnalysis result with _ | text <;>
        simp [getLLMGameAnalysis, hres]
    · exact ⟨rfl, rfl, rfl, rfl, rfl⟩
  · rintro result rfl hnone
    simp [getLLMGameAnalysis, hnone]
  · rintro result text rfl hsome
    simp [getLLMGameAnalysis, hsome]

/-- Witness for C10: a response without candidates yields the
unexpected-response message and leaves the board alone; a well-formed
response displays its first text part. -/
theorem spec2proof_C10_witness :
    (getLLMGameAnalysis initialState (FetchOutcome.success ⟨none⟩)).gameAnalysis
      = unexpectedResponseMsg ∧
    (getLLMGameAnalysis initialState
        (FetchOutcome.success ⟨some [⟨some ⟨some [⟨"well played"⟩]⟩⟩]⟩)).gameAnalysis
      = "well played" ∧
    (getLLMGameAnalysis initialState (FetchOutcome.success ⟨none⟩)).board
      = initialState.board :=
  ⟨(spec2proof_C10 initialState _).2.2.1 ⟨none⟩ rfl rfl,
   (spec2proof_C10 initialState _).2.2.2 _ "well played" rfl rfl,
   (spec2proof_C10 initialState _).1.1⟩

end OOXX
